import Mathlib

/-!
Verification of the alert dispatch pipeline of `app.py` (alerting relay).

The definitions below are a shallow embedding of the Python source:

* `build_message` — renders an inbound alert payload through a template
  (Python `str.format` with keyword arguments is modelled by `fmtGo`);
* `send_sms` — the provider dispatch loop, with the network modelled as an
  oracle `net : Request → Bool` (`false` means the HTTP call raises);
* `resolveNumbers` — the per-team number resolution and deduplication
  performed inline in the `alert` route;
* `add_number`, `remove_number` — the routing-store mutations;
* `load_numbers` — the configuration-file parser (the `json.loads` call on
  provider lines is abstracted as an oracle `jdec`, since its result is only
  passed through to the dispatcher).
-/

namespace Alerting

/-- The fixed team list `TEAMS` of `app.py`. -/
def TEAMS : List String := ["all", "devops", "cloud", "web", "noc", "managers"]

/-- `DEFAULT_TEMPLATE` of `app.py`. -/
def DEFAULT_TEMPLATE : String := "{status} {summary}"

/-- Characters that end the simple-name subset of a Python format field:
`str.format` attribute access, indexing, conversion and format-spec syntax is
outside the modelled fragment (templates in this application use only plain
`\x7bname\x7d` fields). -/
def isFieldStop (c : Char) : Bool :=
  c = '{' || c = ':' || c = '!' || c = '.' || c = '['

/-- Scanner for Python `str.format` with keyword arguments `subs`, restricted
to simple named replacement fields.  The first argument is the scanner state:
`none` means literal text, `some acc` means inside a replacement field whose
name read so far is `acc`.  `none` as a result models a raised exception
(`KeyError` on an unknown field name, `ValueError` on stray or unclosed
braces). -/
def fmtGo (subs : List (String × String)) : Option (List Char) → List Char → Option (List Char)
  | none, [] => some []
  | some _, [] => none
  | none, '{' :: '{' :: rest => (fmtGo subs none rest).map (fun t => '{' :: t)
  | none, '}' :: '}' :: rest => (fmtGo subs none rest).map (fun t => '}' :: t)
  | none, '{' :: rest => fmtGo subs (some []) rest
  | none, '}' :: _ => none
  | none, c :: rest => (fmtGo subs none rest).map (fun t => c :: t)
  | some acc, '}' :: rest =>
    match List.lookup (String.mk acc) subs with
    | none => none
    | some v => (fmtGo subs none rest).map (fun t => v.data ++ t)
  | some acc, c :: rest =>
    if isFieldStop c then none else fmtGo subs (some (acc ++ [c])) rest

/-- `tpl.format(**subs)` — Python `str.format`, `none` when it raises. -/
def pyFormat (tpl : String) (subs : List (String × String)) : Option String :=
  (fmtGo subs none tpl.data).map String.mk

/-- The replacement-field names of a template, scanned exactly like `fmtGo`
scans them; `none` when the template is malformed (or outside the modelled
simple-name fragment). -/
def phGo : Option (List Char) → List Char → Option (List String)
  | none, [] => some []
  | some _, [] => none
  | none, '{' :: '{' :: rest => phGo none rest
  | none, '}' :: '}' :: rest => phGo none rest
  | none, '{' :: rest => phGo (some []) rest
  | none, '}' :: _ => none
  | none, _ :: rest => phGo none rest
  | some acc, '}' :: rest => (phGo none rest).map (fun ps => String.mk acc :: ps)
  | some acc, c :: rest =>
    if isFieldStop c then none else phGo (some (acc ++ [c])) rest

/-- The placeholder names a template references. -/
def placeholdersOf (tpl : String) : Option (List String) :=
  phGo none tpl.data

/-- One entry of the `alerts` array of an Alertmanager/Grafana payload.
`annotations.summary`, `annotations.description` and `labels.alertname` are
flattened: an absent `annotations`/`labels` object is observationally the same
as one missing the key, since the code reads them with `.get` defaults. -/
structure AlertEntry where
  status : Option String
  summary : Option String
  description : Option String
  alertname : Option String
deriving DecidableEq

/-- The inbound JSON payload, restricted to the fields `build_message`
reads.  `Option` distinguishes key presence (`"alerts" in data` etc.). -/
structure Payload where
  alerts : Option (List AlertEntry)
  title : Option String
  state : Option String
  message : Option String
  ruleName : Option String
deriving DecidableEq

/-- Keyword arguments of the `template.format` call in the multi-alert
branch of `build_message`. -/
def multiSubs (a : AlertEntry) : List (String × String) :=
  [("status", a.status.getD "firing"),
   ("summary", a.summary.getD "No summary"),
   ("description", a.description.getD ""),
   ("alertname", a.alertname.getD "")]

/-- Keyword arguments of the `template.format` call in the single-alert
(`title`/`state`) branch of `build_message`. -/
def singleSubs (data : Payload) : List (String × String) :=
  [("status", data.state.getD "firing"),
   ("summary", data.message.getD "No message"),
   ("alertname", data.ruleName.getD "")]

/-- `custom_template if custom_template else DEFAULT_TEMPLATE` — `None` and
the empty string are falsy. -/
def chooseTemplate : Option String → String
  | some t => if t = "" then DEFAULT_TEMPLATE else t
  | none => DEFAULT_TEMPLATE

/-- The `for a in data["alerts"]` loop of `build_message`: formats each entry
in order, the whole build raising as soon as one `format` call raises. -/
def buildLines (tpl : String) : List AlertEntry → Option (List String)
  | [] => some []
  | a :: rest =>
    match pyFormat tpl (multiSubs a) with
    | none => none
    | some m => (buildLines tpl rest).map (fun ms => m :: ms)

/-- `build_message(data, custom_template)` of `app.py`; `none` models a
raised exception. -/
def build_message (data : Payload) (custom_template : Option String) : Option String :=
  let template := chooseTemplate custom_template
  match data.alerts with
  | some entries => (buildLines template entries).map (String.intercalate "\n")
  | none =>
    if data.title.isSome ∧ data.state.isSome then
      (pyFormat template (singleSubs data)).map (fun m => String.intercalate "\n" [m])
    else
      some ""

/-- One destination record `{"number": ..., "desc": ...}`. -/
structure Dest where
  number : String
  desc : String
deriving DecidableEq

/-- A provider entry: a bare URL string or a JSON object with `url` and
`headers` (the code branches on `isinstance(provider, dict)`). -/
inductive Provider
  | bare (url : String)
  | obj (url : Option String) (headers : List (String × String))
deriving DecidableEq

/-- `provider.get("url")` resp. the bare string. -/
def providerUrl : Provider → Option String
  | .bare u => some u
  | .obj u _ => u

/-- `provider.get("headers", {})` resp. `{}` for a bare string. -/
def providerHeaders : Provider → List (String × String)
  | .bare _ => []
  | .obj _ h => h

/-- An outbound `requests.post` call: webhook sends carry a JSON body
`{"text": message}`, SMS sends a form body `{"receptor": n, "message": m}`. -/
inductive Request
  | webhook (url : String) (headers : List (String × String)) (text : String)
  | sms (url : String) (headers : List (String × String)) (receptor : String) (message : String)
deriving DecidableEq

/-- Observable dispatcher events: an attempted outbound request, or the
`except` branch firing for a provider (the failure log line). -/
inductive Event
  | attempt (r : Request)
  | failure (p : Provider)
deriving DecidableEq

/-- Python substring containment (`pat in hay`). -/
def containsSub (pat : List Char) : List Char → Bool
  | [] => pat.isEmpty
  | c :: rest => pat.isPrefixOf (c :: rest) || containsSub pat rest

/-- `"/hooks/" in url`. -/
def hasHooks (url : String) : Bool :=
  containsSub "/hooks/".data url.data

/-- The per-number loop of an SMS provider in `send_sms`: `seen` is the
`seen_numbers` set.  Returns the attempted requests in order and whether a
`requests.post` call raised (aborting the rest of the loop into the
provider-level `except`). -/
def smsLoop (net : Request → Bool) (url : String) (headers : List (String × String))
    (message : String) (seen : List String) : List String → List Request × Bool
  | [] => ([], false)
  | n :: rest =>
    if seen.contains n then smsLoop net url headers message seen rest
    else
      let r := Request.sms url headers n message
      if net r then
        let p := smsLoop net url headers message (n :: seen) rest
        (r :: p.1, p.2)
      else ([r], true)

/-- The `try` body of `send_sms` for one provider, together with the
`except` handler: skip on falsy URL, webhook branch on `/hooks/`, otherwise
the per-number loop; a raised request appends a failure record. -/
def runProvider (net : Request → Bool) (numbers : List String) (message : String)
    (p : Provider) : List Event :=
  match providerUrl p with
  | none => []
  | some u =>
    if u = "" then []
    else if hasHooks u then
      let r := Request.webhook u (providerHeaders p) message
      if net r then [Event.attempt r] else [Event.attempt r, Event.failure p]
    else
      let res := smsLoop net u (providerHeaders p) message [] numbers
      res.1.map Event.attempt ++ (if res.2 then [Event.failure p] else [])

/-- `send_sms(numbers, message, providers)` of `app.py`: the provider loop,
as the sequence of observable events (the 1-second inter-provider sleep has
no observable effect in this model). -/
def send_sms (net : Request → Bool) (numbers : List String) (message : String) :
    List Provider → List Event
  | [] => []
  | p :: ps => runProvider net numbers message p ++ send_sms net numbers message ps

/-- The dedup loop of the `alert` route (`seen` set over entry numbers). -/
def uniqueNumbersAux (seen : List String) : List Dest → List String
  | [] => []
  | e :: rest =>
    if seen.contains e.number then uniqueNumbersAux seen rest
    else e.number :: uniqueNumbersAux (e.number :: seen) rest

/-- Number resolution of the `alert` route: `teams.get(team, [])` followed by
first-occurrence deduplication of the entry numbers. -/
def resolveNumbers (teams : List (String × List Dest)) (team : String) : List String :=
  uniqueNumbersAux [] ((List.lookup team teams).getD [])

/-- Accumulator-style first-occurrence deduplication over strings (the shape
shared by `smsLoop` and `uniqueNumbersAux`). -/
def dedupFrom (seen : List String) : List String → List String
  | [] => []
  | n :: rest =>
    if seen.contains n then dedupFrom seen rest
    else n :: dedupFrom (n :: seen) rest

/-- The specification's "deduplicated, preserving first-occurrence order",
written directly: keep the first copy of each element, drop its later
occurrences. -/
def specDedup : List String → List String
  | [] => []
  | a :: rest => a :: (specDedup rest).filter (fun x => x ≠ a)

/-- A network oracle under which no `requests.post` call raises. -/
def netAlways : Request → Bool := fun _ => true

/-- A network oracle under which exactly the SMS sends to receptor `n`
raise (e.g. connection refused for that one send). -/
def netFailReceptor (n : String) : Request → Bool
  | .sms _ _ m _ => !(m == n)
  | _ => true

/-- The dispatch behaviour described by the specification: per provider, in
order — skip on empty/absent URL, one webhook request when the URL contains
`/hooks/`, otherwise one SMS request per number of the deduplicated numbers
sequence. -/
def classifiedSends (numbers : List String) (message : String) : List Provider → List Event
  | [] => []
  | p :: ps =>
    (match providerUrl p with
     | none => []
     | some u =>
       if u = "" then []
       else if hasHooks u then [Event.attempt (Request.webhook u (providerHeaders p) message)]
       else (specDedup numbers).map
         (fun n => Event.attempt (Request.sms u (providerHeaders p) n message)))
    ++ classifiedSends numbers message ps

/-- The JSON response of the `alert` route. -/
structure AlertResponse where
  status : String
  sent_to : List String
deriving DecidableEq

/-- The `alert` route handler: resolves numbers, builds the message and
dispatches.  Returns the dispatch trace and the response; a raised
`build_message` (propagating out of the handler) is `none`, in which case no
send is attempted. -/
def alert (net : Request → Bool) (teams : List (String × List Dest))
    (providers : List Provider) (custom_template : Option String)
    (data : Payload) (team : String) : List Event × Option AlertResponse :=
  let unique_numbers := resolveNumbers teams team
  match build_message data custom_template with
  | none => ([], none)
  | some message =>
    (send_sms net unique_numbers message providers, some ⟨"ok", unique_numbers⟩)

/-- Replace the destination list of team `t` (Python dict item assignment /
in-place append, over an association-list store). -/
def updateTeam (teams : List (String × List Dest)) (t : String)
    (f : List Dest → List Dest) : List (String × List Dest) :=
  teams.map (fun kv => if kv.1 = t then (kv.1, f kv.2) else kv)

/-- `teams[t]` as read by the mutation endpoints (total, via `getD`; the
stores produced by `load_numbers` always carry every team key). -/
def teamNumbers (teams : List (String × List Dest)) (t : String) : List Dest :=
  (List.lookup t teams).getD []

/-- `add_number(team)` of `app.py`: guarded by `team in teams and number`;
appends to the team unless the number is already there, then mirrors into
`all` unless already there. -/
def add_number (teams : List (String × List Dest)) (team number desc : String) :
    List (String × List Dest) :=
  if (List.lookup team teams).isSome ∧ number ≠ "" then
    let t1 :=
      if (teamNumbers teams team).any (fun e => e.number == number) then teams
      else updateTeam teams team (fun l => l ++ [⟨number, desc⟩])
    if (teamNumbers t1 "all").any (fun e => e.number == number) then t1
    else updateTeam t1 "all" (fun l => l ++ [⟨number, desc⟩])
  else teams

/-- `remove_number(team, number)` of `app.py`: filters the team's list. -/
def remove_number (teams : List (String × List Dest)) (team number : String) :
    List (String × List Dest) :=
  if (List.lookup team teams).isSome then
    updateTeam teams team (fun l => l.filter (fun e => e.number != number))
  else teams

/-- The mirroring invariant: every number of every non-`all` team also
appears in the `all` team's destination list. -/
def Mirror (teams : List (String × List Dest)) : Prop :=
  ∀ kv ∈ teams, kv.1 ≠ "all" → ∀ e ∈ kv.2,
    ∃ e2 ∈ teamNumbers teams "all", e2.number = e.number

instance (teams : List (String × List Dest)) : Decidable (Mirror teams) := by
  unfold Mirror; infer_instance

/-- Python `str.strip()` over the character list. -/
def trimChars (cs : List Char) : List Char :=
  ((cs.dropWhile Char.isWhitespace).reverse.dropWhile Char.isWhitespace).reverse

/-- Python `str.strip()`. -/
def pyStrip (s : String) : String := String.mk (trimChars s.data)

/-- Python `str.startswith`. -/
def pyStartsWith (s pre : String) : Bool := pre.data.isPrefixOf s.data

/-- Python `str.endswith`. -/
def pyEndsWith (s suf : String) : Bool := suf.data.reverse.isPrefixOf s.data.reverse

/-- `line[1:-1]` for the section-header line. -/
def innerChars (s : String) : String := String.mk (s.data.drop 1).dropLast

/-- Python `split("|", 1)`: split at the first pipe, `none` when there is
no pipe. -/
def splitFirstPipe : List Char → Option (List Char × List Char)
  | [] => none
  | '|' :: rest => some ([], rest)
  | c :: rest => (splitFirstPipe rest).map (fun p => (c :: p.1, p.2))

/-- `line.split("|", 1)` with stripping, producing a destination record. -/
def parseDest (l : String) : Dest :=
  match splitFirstPipe l.data with
  | none => ⟨pyStrip l, ""⟩
  | some (n, d) => ⟨pyStrip (String.mk n), pyStrip (String.mk d)⟩

/-- A provider line: `json.loads(line)` when it starts with a brace (the
JSON decoder is the oracle `jdec`; a decode failure keeps the raw line),
otherwise the raw line. -/
def parseProviderLine (jdec : String → Option Provider) (l : String) : Provider :=
  if pyStartsWith l "\x7b" then
    match jdec l with
    | some p => p
    | none => Provider.bare l
  else Provider.bare l

/-- `teams = {t: [] for t in TEAMS}`. -/
def initTeams : List (String × List Dest) := TEAMS.map (fun t => (t, []))

/-- The line loop of `load_numbers`: strip, skip blanks, section headers
switch `current_team` (only to known teams or `sms_provider`), other lines
are appended to the current section. -/
def parseLoop (jdec : String → Option Provider) (teams : List (String × List Dest))
    (providers : List Provider) (current : Option String) :
    List String → List (String × List Dest) × List Provider
  | [] => (teams, providers)
  | line :: rest =>
    let l := pyStrip line
    if l = "" then parseLoop jdec teams providers current rest
    else if pyStartsWith l "[" && pyEndsWith l "]" then
      let sect := pyStrip (innerChars l)
      if sect ∈ TEAMS then parseLoop jdec teams providers (some sect) rest
      else if sect = "sms_provider" then
        parseLoop jdec teams providers (some "sms_provider") rest
      else parseLoop jdec teams providers current rest
    else
      match current with
      | some c =>
        if c = "sms_provider" then
          parseLoop jdec teams (providers ++ [parseProviderLine jdec l]) current rest
        else if c ∈ TEAMS then
          parseLoop jdec (updateTeam teams c (fun ds => ds ++ [parseDest l])) providers current rest
        else parseLoop jdec teams providers current rest
      | none => parseLoop jdec teams providers current rest

/-- The bootstrap content `load_numbers` writes when the file is missing:
one empty section per team plus an empty `sms_provider` section. -/
def defaultContent : List String :=
  (TEAMS.map (fun t => "[" ++ t ++ "]")) ++ ["[sms_provider]"]

/-- `load_numbers()` of `app.py` over the file's lines (`none` = the file
does not exist, in which case the bootstrap content is written and read). -/
def load_numbers (jdec : String → Option Provider) (file : Option (List String)) :
    List (String × List Dest) × List Provider :=
  parseLoop jdec initTeams [] none (file.getD defaultContent)

/-- Does a (raw) line act as the section header of `t`? -/
def isHeaderFor (t : String) (line : String) : Bool :=
  let l := pyStrip line
  pyStartsWith l "[" && pyEndsWith l "]" && pyStrip (innerChars l) == t

theorem fmtGo_isSome_iff (subs : List (String × String)) (st : Option (List Char)) (cs : List Char) :
    (fmtGo subs st cs).isSome ↔
      ∃ ps, phGo st cs = some ps ∧ ∀ p ∈ ps, (List.lookup p subs).isSome := by
  induction st, cs using fmtGo.induct subs with
  | case8 acc rest h =>
    constructor
    · intro hc
      simp [fmtGo, h] at hc
    · rintro ⟨ps, hps, hall⟩
      simp only [phGo] at hps
      obtain ⟨qs, hqs, rfl⟩ := Option.map_eq_some'.mp hps
      have h2 := hall (String.mk acc) (List.mem_cons_self _ _)
      rw [h] at h2
      cases h2
  | case9 acc rest v h ih =>
    simp only [fmtGo, phGo, h]
    constructor
    · intro hc
      simp only [Option.isSome_map'] at hc
      obtain ⟨ps, hps, hall⟩ := ih.mp hc
      refine ⟨String.mk acc :: ps, by rw [hps]; rfl, ?_⟩
      intro p hp
      rcases List.mem_cons.mp hp with rfl | hp2
      · rw [h]; rfl
      · exact hall p hp2
    · rintro ⟨ps, hps, hall⟩
      obtain ⟨qs, hqs, rfl⟩ := Option.map_eq_some'.mp hps
      simp only [Option.isSome_map']
      exact ih.mpr ⟨qs, hqs, fun p hp => hall p (List.mem_cons_of_mem _ hp)⟩
  | _ => simp_all [fmtGo, phGo]
theorem pyFormat_isSome_iff (tpl : String) (subs : List (String × String)) :
    (pyFormat tpl subs).isSome ↔
      ∃ ps, placeholdersOf tpl = some ps ∧ ∀ p ∈ ps, (List.lookup p subs).isSome := by
  simpa [pyFormat, placeholdersOf, Option.isSome_map'] using fmtGo_isSome_iff subs none tpl.data

theorem lookup_isSome_iff_mem_keys {β : Type} (p : String) (l : List (String × β)) :
    (List.lookup p l).isSome ↔ p ∈ l.map Prod.fst := by
  induction l with
  | nil => simp [List.lookup]
  | cons kv rest ih =>
    rcases kv with ⟨k, v⟩
    by_cases h : p = k
    · subst h; simp [List.lookup]
    · have hb : (p == k) = false := beq_eq_false_iff_ne.mpr h
      simp [List.lookup, hb, ih, h]

theorem lookup_multiSubs (p : String) (a : AlertEntry) :
    (List.lookup p (multiSubs a)).isSome ↔
      p ∈ (["status", "summary", "description", "alertname"] : List String) := by
  simp [lookup_isSome_iff_mem_keys, multiSubs]

theorem lookup_singleSubs (p : String) (data : Payload) :
    (List.lookup p (singleSubs data)).isSome ↔
      p ∈ (["status", "summary", "alertname"] : List String) := by
  simp [lookup_isSome_iff_mem_keys, singleSubs]

theorem buildLines_isSome_iff (tpl : String) (entries : List AlertEntry) :
    (buildLines tpl entries).isSome ↔ ∀ a ∈ entries, (pyFormat tpl (multiSubs a)).isSome := by
  induction entries with
  | nil => simp [buildLines]
  | cons a rest ih => cases hf : pyFormat tpl (multiSubs a) <;> simp_all [buildLines]

theorem buildLines_spec (tpl : String) (entries : List AlertEntry) (msgs : List String)
    (h : buildLines tpl entries = some msgs) :
    msgs.length = entries.length ∧
      ∀ i : Nat, (hi : i < entries.length) → (hm : i < msgs.length) →
        pyFormat tpl (multiSubs (entries.get ⟨i, hi⟩)) = some (msgs.get ⟨i, hm⟩) := by
  induction entries generalizing msgs with
  | nil =>
    simp only [buildLines, Option.some_inj] at h
    subst h
    simp
  | cons a rest ih =>
    simp only [buildLines] at h
    cases hf : pyFormat tpl (multiSubs a) with
    | none => rw [hf] at h; cases h
    | some m =>
      rw [hf] at h
      obtain ⟨ms, hms, rfl⟩ := Option.map_eq_some'.mp h
      obtain ⟨hlen, hidx⟩ := ih ms hms
      refine ⟨by simp [hlen], ?_⟩
      intro i hi hm
      cases i with
      | zero => simpa using hf
      | succ j => simpa using hidx j (by simpa using hi) (by simpa using hm)
/-- C1: for a payload with an `alerts` array of N entries, `build_message`
produces exactly N lines joined by a single newline (no trailing newline), in
entry order, each line being the template formatted with `status` (default
`"firing"`), `annotations.summary` (default `"No summary"`),
`annotations.description` (default `""`) and `labels.alertname`
(default `""`). -/
theorem multi_alert_message_lines (data : Payload) (ct : Option String)
    (entries : List AlertEntry) (out : String)
    (halerts : data.alerts = some entries)
    (hout : build_message data ct = some out) :
    ∃ msgs : List String,
      msgs.length = entries.length ∧
      out = String.intercalate "\n" msgs ∧
      ∀ i : Nat, (hi : i < entries.length) → (hm : i < msgs.length) →
        pyFormat (chooseTemplate ct)
          [("status", (entries.get ⟨i, hi⟩).status.getD "firing"),
           ("summary", (entries.get ⟨i, hi⟩).summary.getD "No summary"),
           ("description", (entries.get ⟨i, hi⟩).description.getD ""),
           ("alertname", (entries.get ⟨i, hi⟩).alertname.getD "")] = some (msgs.get ⟨i, hm⟩) := by
  simp only [build_message, halerts] at hout
  obtain ⟨msgs, hms, rfl⟩ := Option.map_eq_some'.mp hout
  obtain ⟨hlen, hidx⟩ := buildLines_spec _ _ _ hms
  exact ⟨msgs, hlen, rfl, fun i hi hm => by simpa [multiSubs] using hidx i hi hm⟩

/-- Witness for C1 at the spec's scenario payload. -/
theorem multi_alert_message_lines_witness :
    ∃ msgs : List String,
      msgs.length = 1 ∧
      "firing disk full" = String.intercalate "\n" msgs ∧
      ∀ i : Nat, (hi : i < 1) → (hm : i < msgs.length) →
        pyFormat (chooseTemplate none)
          [("status", ((([⟨some "firing", some "disk full", none, some "DiskFull"⟩] : List AlertEntry).get ⟨i, hi⟩).status.getD "firing")),
           ("summary", ((([⟨some "firing", some "disk full", none, some "DiskFull"⟩] : List AlertEntry).get ⟨i, hi⟩).summary.getD "No summary")),
           ("description", ((([⟨some "firing", some "disk full", none, some "DiskFull"⟩] : List AlertEntry).get ⟨i, hi⟩).description.getD "")),
           ("alertname", ((([⟨some "firing", some "disk full", none, some "DiskFull"⟩] : List AlertEntry).get ⟨i, hi⟩).alertname.getD ""))] = some (msgs.get ⟨i, hm⟩) :=
  multi_alert_message_lines
    ⟨some [⟨some "firing", some "disk full", none, some "DiskFull"⟩], none, none, none, none⟩
    none [⟨some "firing", some "disk full", none, some "DiskFull"⟩] "firing disk full"
    rfl (by decide)

/-- C6: for a payload with `title` and `state` and no `alerts`,
`build_message` is one line: the template formatted with `state` as status,
`message` as summary (default `"No message"`) and `ruleName` as alertname
(default `""`); a payload matching neither variant yields `""`. -/
theorem single_alert_message (data : Payload) (ct : Option String) :
    (data.alerts = none → data.title.isSome → data.state.isSome →
      build_message data ct =
        pyFormat (chooseTemplate ct)
          [("status", data.state.getD "firing"),
           ("summary", data.message.getD "No message"),
           ("alertname", data.ruleName.getD "")])
    ∧ (data.alerts = none → ¬(data.title.isSome ∧ data.state.isSome) →
        build_message data ct = some "") := by
  constructor
  · intro ha ht hs
    simp only [build_message, ha, ht, hs, and_self, if_true]
    cases h : pyFormat (chooseTemplate ct) (singleSubs data) with
    | none => simp [singleSubs] at h; simp [h]
    | some m =>
      simp only [singleSubs] at h
      simp only [h, Option.map_some']
      have : String.intercalate "\n" [m] = m := rfl
      rw [this]
  · intro ha hnot
    simp only [build_message, ha]
    rw [if_neg hnot]

/-- Witness for C6 at the spec's scenario payload and a no-variant payload. -/
theorem single_alert_message_witness :
    build_message ⟨none, some "x", some "resolved", some "all good", some "R1"⟩ none = some "resolved all good" ∧
    build_message ⟨none, some "x", none, some "y", none⟩ none = some "" := by
  constructor
  · have h := (single_alert_message ⟨none, some "x", some "resolved", some "all good", some "R1"⟩ none).1 rfl rfl rfl
    rw [h]; decide
  · exact (single_alert_message ⟨none, some "x", none, some "y", none⟩ none).2 rfl (by decide)
/-- C7 counterexample: with an empty `alerts` array the multi-alert variant
makes no `format` call, so a template whose only placeholder is unrecognized
does not raise — `build_message` returns `""` instead. -/
theorem template_error_counterexample :
    placeholdersOf "{bogus}" = some ["bogus"] ∧
    ("bogus" ∉ (["status", "summary", "description", "alertname"] : List String)) ∧
    build_message ⟨some [], none, none, none, none⟩ (some "{bogus}") = some "" := by
  refine ⟨by decide, by decide, by decide⟩

/-- C7 amended: for a well-formed template, the multi-alert variant with at
least one entry raises iff some placeholder is outside
\x7bstatus, summary, description, alertname\x7d, and the single-alert variant
raises iff some placeholder is outside \x7bstatus, summary, alertname\x7d
(so `\x7bdescription\x7d` raises for single-alert but succeeds for
multi-alert payloads); with zero alert entries no formatting occurs. -/
theorem template_error_amended (data : Payload) (ct : Option String) (phs : List String)
    (hph : placeholdersOf (chooseTemplate ct) = some phs) :
    (∀ entries, data.alerts = some entries → entries ≠ [] →
      ((build_message data ct).isSome ↔
        ∀ p ∈ phs, p ∈ (["status", "summary", "description", "alertname"] : List String)))
    ∧ (data.alerts = none → data.title.isSome → data.state.isSome →
      ((build_message data ct).isSome ↔
        ∀ p ∈ phs, p ∈ (["status", "summary", "alertname"] : List String))) := by
  constructor
  · intro entries ha hne
    simp only [build_message, ha, Option.isSome_map']
    rw [buildLines_isSome_iff]
    constructor
    · intro hall p hp
      obtain ⟨a, ha2⟩ := List.exists_mem_of_ne_nil entries hne
      obtain ⟨ps, hps, hlook⟩ := (pyFormat_isSome_iff _ _).mp (hall a ha2)
      rw [hph] at hps
      injection hps with e
      subst e
      exact (lookup_multiSubs p a).mp (hlook p hp)
    · intro hall a _
      rw [pyFormat_isSome_iff]
      exact ⟨phs, hph, fun p hp => (lookup_multiSubs p a).mpr (hall p hp)⟩
  · intro ha ht hs
    simp only [build_message, ha, ht, hs, and_self, if_true, Option.isSome_map']
    rw [pyFormat_isSome_iff]
    constructor
    · rintro ⟨ps, hps, hlook⟩ p hp
      rw [hph] at hps
      injection hps with e
      subst e
      exact (lookup_singleSubs p data).mp (hlook p hp)
    · intro hall
      exact ⟨phs, hph, fun p hp => (lookup_singleSubs p data).mpr (hall p hp)⟩

/-- Witness for the amended C7: `\x7bdescription\x7d` succeeds on a one-entry
multi-alert payload and raises on a single-alert payload. -/
theorem template_error_amended_witness :
    ((build_message ⟨some [⟨none, none, none, none⟩], none, none, none, none⟩ (some "{description}")).isSome ↔
      ∀ p ∈ (["description"] : List String), p ∈ (["status", "summary", "description", "alertname"] : List String)) ∧
    ((build_message ⟨none, some "x", some "s", none, none⟩ (some "{description}")).isSome ↔
      ∀ p ∈ (["description"] : List String), p ∈ (["status", "summary", "alertname"] : List String)) :=
  ⟨(template_error_amended ⟨some [⟨none, none, none, none⟩], none, none, none, none⟩
      (some "{description}") ["description"] (by decide)).1 _ rfl (by decide),
   (template_error_amended ⟨none, some "x", some "s", none, none⟩
      (some "{description}") ["description"] (by decide)).2 rfl rfl rfl⟩

theorem mem_specDedup (x : String) (l : List String) : x ∈ specDedup l ↔ x ∈ l := by
  induction l with
  | nil => simp [specDedup]
  | cons a rest ih =>
    simp only [specDedup, List.mem_cons, List.mem_filter, ih]
    by_cases h : x = a <;> simp [h]

theorem specDedup_nodup (l : List String) : (specDedup l).Nodup := by
  induction l with
  | nil => simp [specDedup]
  | cons a rest ih =>
    simp only [specDedup, List.nodup_cons]
    refine ⟨fun hmem => ?_, ih.filter _⟩
    simp [List.mem_filter] at hmem

theorem dedupFrom_eq_filter (seen l : List String) :
    dedupFrom seen l = (specDedup l).filter (fun x => !seen.contains x) := by
  induction l generalizing seen with
  | nil => rfl
  | cons n rest ih =>
    cases h : seen.contains n with
    | true =>
      simp only [dedupFrom, h, if_true, specDedup, List.filter_cons, h, Bool.not_true, if_false]
      rw [ih, List.filter_filter]
      apply List.filter_congr
      intro x _
      cases hx : seen.contains x with
      | true => simp [hx]
      | false =>
        have hne : x ≠ n := fun e => by rw [e, h] at hx; cases hx
        simp [hx, hne]
    | false =>
      simp only [dedupFrom, h, specDedup, List.filter_cons, Bool.not_false, if_true]
      rw [if_neg (by simp), ih, List.filter_filter]
      congr 1
      apply List.filter_congr
      intro x _
      cases hx : seen.contains x with
      | true => simp_all [List.contains_cons]
      | false => simp_all [List.contains_cons]

theorem dedupFrom_nil (l : List String) : dedupFrom [] l = specDedup l := by
  rw [dedupFrom_eq_filter]
  apply List.filter_eq_self.mpr
  intro x _
  rfl

theorem uniqueNumbersAux_eq_dedupFrom (seen : List String) (l : List Dest) :
    uniqueNumbersAux seen l = dedupFrom seen (l.map Dest.number) := by
  induction l generalizing seen with
  | nil => rfl
  | cons e rest ih =>
    cases h : seen.contains e.number with
    | true => simp [uniqueNumbersAux, dedupFrom, h, ih]
    | false => simp [uniqueNumbersAux, dedupFrom, h, ih]
/-- C4: number resolution returns `[]` for an unrecognized team (not an
error), and otherwise the team's numbers deduplicated preserving
first-occurrence order (in particular without duplicates). -/
theorem resolve_numbers_spec (teams : List (String × List Dest)) (team : String) :
    (List.lookup team teams = none → resolveNumbers teams team = []) ∧
    resolveNumbers teams team =
      specDedup (((List.lookup team teams).getD []).map Dest.number) ∧
    (resolveNumbers teams team).Nodup := by
  have heq : resolveNumbers teams team =
      specDedup (((List.lookup team teams).getD []).map Dest.number) := by
    rw [resolveNumbers, uniqueNumbersAux_eq_dedupFrom, dedupFrom_nil]
  refine ⟨fun h => ?_, heq, heq ▸ specDedup_nodup _⟩
  rw [heq, h]
  rfl

/-- Witness for C4: the spec's scenario store (`all` holding
`["+1","+2","+1"]`), resolved for an unknown team and for `all`. -/
theorem resolve_numbers_spec_witness :
    resolveNumbers [("all", [⟨"+1", "a"⟩, ⟨"+2", ""⟩, ⟨"+1", "b"⟩])] "nosuch" = [] ∧
    resolveNumbers [("all", [⟨"+1", "a"⟩, ⟨"+2", ""⟩, ⟨"+1", "b"⟩])] "all" = specDedup ["+1", "+2", "+1"] ∧
    resolveNumbers [("all", [⟨"+1", "a"⟩, ⟨"+2", ""⟩, ⟨"+1", "b"⟩])] "all" = ["+1", "+2"] := by
  refine ⟨(resolve_numbers_spec _ "nosuch").1 (by decide), ?_, by decide⟩
  exact ((resolve_numbers_spec [("all", [⟨"+1", "a"⟩, ⟨"+2", ""⟩, ⟨"+1", "b"⟩])] "all").2.1).trans
    (congrArg specDedup (by decide))

theorem smsLoop_all_success (net : Request → Bool) (hnet : ∀ r, net r = true)
    (url : String) (headers : List (String × String)) (message : String)
    (seen ns : List String) :
    smsLoop net url headers message seen ns =
      ((dedupFrom seen ns).map (fun n => Request.sms url headers n message), false) := by
  induction ns generalizing seen with
  | nil => rfl
  | cons n rest ih =>
    by_cases hm : n ∈ seen
    · have h : seen.contains n = true := by simpa using hm
      simp [smsLoop, dedupFrom, h, hm, ih]
    · have h : seen.contains n = false := by simpa using hm
      simp [smsLoop, dedupFrom, h, hm, ih, hnet]
/-- C2 counterexample: a provider whose resolved URL is the empty string
does not contain `/hooks/`, yet no SMS request is sent for it at all — the
provider is skipped, contradicting the claim's webhook/SMS dichotomy taken
over every provider. -/
theorem dispatch_classification_counterexample :
    hasHooks "" = false ∧
    send_sms netAlways ["1"] "m" [Provider.bare ""] = [] ∧
    Event.attempt (Request.sms "" [] "1" "m") ∉ send_sms netAlways ["1"] "m" [Provider.bare ""] := by
  refine ⟨by decide, by decide, by decide⟩

/-- C2 amended: when no send raises, the dispatcher's trace is exactly the
specification's classification — per provider in list order: skip on
empty/absent URL, else one webhook request (JSON body, provider headers) when
the URL contains `/hooks/`, else one SMS request (form body, provider
headers) per number of the deduplicated numbers sequence, in order. -/
theorem dispatch_classification (net : Request → Bool) (numbers : List String)
    (message : String) (providers : List Provider) (hnet : ∀ r, net r = true) :
    send_sms net numbers message providers = classifiedSends numbers message providers := by
  induction providers with
  | nil => rfl
  | cons p ps ih =>
    simp only [send_sms, classifiedSends, ih]
    congr 1
    unfold runProvider
    cases hu : providerUrl p with
    | none => rfl
    | some u =>
      by_cases he : u = ""
      · simp [he]
      · by_cases hh : hasHooks u
        · simp [he, hh, hnet]
        · simp [he, hh, smsLoop_all_success net hnet, dedupFrom_nil, List.map_map]

/-- Witness for the amended C2: the spec's scenario — one `/hooks/`
provider, one SMS provider, three distinct numbers — gives exactly one
webhook send followed by three SMS sends. -/
theorem dispatch_classification_witness :
    send_sms netAlways ["1", "2", "3"] "m"
      [Provider.bare "https://chat.example/hooks/abc", Provider.bare "https://sms.example/send"] =
      [Event.attempt (Request.webhook "https://chat.example/hooks/abc" [] "m"),
       Event.attempt (Request.sms "https://sms.example/send" [] "1" "m"),
       Event.attempt (Request.sms "https://sms.example/send" [] "2" "m"),
       Event.attempt (Request.sms "https://sms.example/send" [] "3" "m")] :=
  (dispatch_classification netAlways ["1", "2", "3"] "m"
    [Provider.bare "https://chat.example/hooks/abc", Provider.bare "https://sms.example/send"]
    (fun _ => rfl)).trans (by decide)

/-- C3 counterexample: a raised SMS send is caught at the provider level, so
the remaining numbers of that provider are NOT attempted: with numbers
`["1","2"]` and the send to `"1"` raising, no request for `"2"` occurs. -/
theorem failure_isolation_counterexample :
    send_sms (netFailReceptor "1") ["1", "2"] "m" [Provider.bare "https://sms.example"] =
      [Event.attempt (Request.sms "https://sms.example" [] "1" "m"),
       Event.failure (Provider.bare "https://sms.example")] ∧
    Event.attempt (Request.sms "https://sms.example" [] "2" "m") ∉
      send_sms (netFailReceptor "1") ["1", "2"] "m" [Provider.bare "https://sms.example"] := by
  refine ⟨by decide, by decide⟩

/-- C3 amended: an error raised while contacting one provider is caught and
does not abort the remaining providers (the trace decomposes provider by
provider, whatever the network oracle does); but within an SMS provider a
raised send ends that provider's number loop — the failing attempt is the
provider's last, and the remaining numbers are skipped. -/
theorem failure_isolation_amended :
    (∀ (net : Request → Bool) (numbers : List String) (message : String) (ps1 ps2 : List Provider),
      send_sms net numbers message (ps1 ++ ps2) =
        send_sms net numbers message ps1 ++ send_sms net numbers message ps2)
    ∧ (∀ (net : Request → Bool) (url : String) (headers : List (String × String))
        (message : String) (seen : List String) (n : String) (ns : List String),
        n ∉ seen → net (Request.sms url headers n message) = false →
        smsLoop net url headers message seen (n :: ns) =
          ([Request.sms url headers n message], true)) := by
  constructor
  · intro net numbers message ps1 ps2
    induction ps1 with
    | nil => rfl
    | cons p ps ih => simp [send_sms, ih]
  · intro net url headers message seen n ns hseen hnet
    simp [smsLoop, hseen, hnet]

/-- Witness for the amended C3: both parts at concrete inputs. -/
theorem failure_isolation_amended_witness :
    send_sms (netFailReceptor "1") ["1", "2"] "m"
        ([Provider.bare "https://sms.example"] ++ [Provider.bare "https://x/hooks/y"]) =
      send_sms (netFailReceptor "1") ["1", "2"] "m" [Provider.bare "https://sms.example"] ++
        send_sms (netFailReceptor "1") ["1", "2"] "m" [Provider.bare "https://x/hooks/y"] ∧
    smsLoop (netFailReceptor "1") "u" [] "m" [] ["1", "2"] =
      ([Request.sms "u" [] "1" "m"], true) :=
  ⟨failure_isolation_amended.1 (netFailReceptor "1") ["1", "2"] "m" _ _,
   failure_isolation_amended.2 (netFailReceptor "1") "u" [] "m" [] "1" ["2"]
     (by decide) (by decide)⟩

/-- C9: a provider with empty or absent URL is skipped silently — no
outbound request, no recorded failure — and the remaining providers are
still processed. -/
theorem skip_empty_url (net : Request → Bool) (numbers : List String) (message : String)
    (p : Provider) (ps1 ps2 : List Provider)
    (hurl : providerUrl p = none ∨ providerUrl p = some "") :
    runProvider net numbers message p = [] ∧
    send_sms net numbers message (ps1 ++ p :: ps2) =
      send_sms net numbers message ps1 ++ send_sms net numbers message ps2 := by
  have hrun : runProvider net numbers message p = [] := by
    rcases hurl with h | h <;> simp [runProvider, h]
  refine ⟨hrun, ?_⟩
  induction ps1 with
  | nil => simp [send_sms, hrun]
  | cons q qs ih => simp [send_sms, ih]

/-- Witness for C9 at a bare empty-URL provider between two live ones. -/
theorem skip_empty_url_witness :
    runProvider netAlways ["1"] "m" (Provider.bare "") = [] ∧
    send_sms netAlways ["1"] "m"
        ([Provider.bare "https://x/hooks/y"] ++ Provider.bare "" :: [Provider.bare "u"]) =
      send_sms netAlways ["1"] "m" [Provider.bare "https://x/hooks/y"] ++
        send_sms netAlways ["1"] "m" [Provider.bare "u"] :=
  skip_empty_url netAlways ["1"] "m" (Provider.bare "")
    [Provider.bare "https://x/hooks/y"] [Provider.bare "u"] (Or.inr rfl)

theorem lookup_cons (s k : String) (v : List Dest) (rest : List (String × List Dest)) :
    List.lookup s ((k, v) :: rest) = if s = k then some v else List.lookup s rest := by
  by_cases h : s = k
  · subst h
    simp [List.lookup]
  · have hb : (s == k) = false := beq_eq_false_iff_ne.mpr h
    simp [List.lookup, hb, h]

theorem updateTeam_cons (k : String) (v : List Dest) (rest : List (String × List Dest))
    (t : String) (f : List Dest → List Dest) :
    updateTeam ((k, v) :: rest) t f =
      (if k = t then (k, f v) else (k, v)) :: updateTeam rest t f := by
  by_cases h : k = t <;> simp [updateTeam, h]

theorem lookup_updateTeam (teams : List (String × List Dest)) (t s : String)
    (f : List Dest → List Dest) :
    List.lookup s (updateTeam teams t f) =
      if s = t then (List.lookup s teams).map f else List.lookup s teams := by
  induction teams with
  | nil => by_cases h : s = t <;> simp [updateTeam, List.lookup, h]
  | cons kv rest ih =>
    rcases kv with ⟨k, v⟩
    rw [updateTeam_cons]
    by_cases hkt : k = t
    · subst hkt
      rw [if_pos rfl]
      by_cases hsk : s = k
      · subst hsk
        simp [lookup_cons]
      · simp [lookup_cons, hsk, ih]
    · rw [if_neg hkt]
      by_cases hsk : s = k
      · subst hsk
        have hst : ¬ s = t := hkt
        simp [lookup_cons, hst]
      · simp [lookup_cons, hsk, ih]

theorem mem_updateTeam (teams : List (String × List Dest)) (t : String)
    (f : List Dest → List Dest) (kv : String × List Dest)
    (h : kv ∈ updateTeam teams t f) :
    ∃ kv0 ∈ teams, kv.1 = kv0.1 ∧ (kv.2 = kv0.2 ∨ (kv0.1 = t ∧ kv.2 = f kv0.2)) := by
  simp only [updateTeam, List.mem_map] at h
  obtain ⟨kv0, hmem, heq⟩ := h
  by_cases hk : kv0.1 = t
  · rw [if_pos hk] at heq
    exact ⟨kv0, hmem, by rw [← heq], Or.inr ⟨hk, by rw [← heq]⟩⟩
  · rw [if_neg hk] at heq
    exact ⟨kv0, hmem, by rw [← heq], Or.inl (by rw [← heq])⟩
theorem teamNumbers_updateTeam_ne (teams : List (String × List Dest)) (t s : String)
    (f : List Dest → List Dest) (h : s ≠ t) :
    teamNumbers (updateTeam teams t f) s = teamNumbers teams s := by
  simp [teamNumbers, lookup_updateTeam, h]

theorem any_number_eq (l : List Dest) (number : String) :
    l.any (fun e => e.number == number) = true ↔ ∃ e ∈ l, e.number = number := by
  simp [List.any_eq_true]

theorem mirror_grow_all (teams : List (String × List Dest)) (f : List Dest → List Dest)
    (hgrow : ∀ l : List Dest, ∀ e ∈ l, e ∈ f l) (hm : Mirror teams) :
    Mirror (updateTeam teams "all" f) := by
  intro kv hkv hne e he
  obtain ⟨kv0, hkv0, hfst, hsnd⟩ := mem_updateTeam _ _ _ _ hkv
  have hne0 : kv0.1 ≠ "all" := hfst ▸ hne
  have hev : e ∈ kv0.2 := by
    rcases hsnd with h | ⟨h, _⟩
    · exact h ▸ he
    · exact absurd h hne0
  obtain ⟨e2, he2, he2n⟩ := hm kv0 hkv0 hne0 e hev
  refine ⟨e2, ?_, he2n⟩
  rw [teamNumbers, lookup_updateTeam, if_pos rfl]
  rw [teamNumbers] at he2
  cases hlk : List.lookup "all" teams with
  | none => rw [hlk] at he2; cases he2
  | some la =>
    rw [hlk] at he2
    simpa using hgrow la e2 he2

theorem mirror_add_number (teams : List (String × List Dest)) (team number desc : String)
    (la : List Dest) (hla : List.lookup "all" teams = some la) (hm : Mirror teams) :
    Mirror (add_number teams team number desc) := by
  by_cases hguard : (List.lookup team teams).isSome ∧ number ≠ ""
  · simp only [add_number, if_pos hguard]
    by_cases h1 : ((teamNumbers teams team).any (fun e => e.number == number)) = true
    · rw [if_pos h1]
      by_cases h2 : ((teamNumbers teams "all").any (fun e => e.number == number)) = true
      · rw [if_pos h2]
        exact hm
      · rw [if_neg h2]
        exact mirror_grow_all teams _ (fun l e he => List.mem_append_left _ he) hm
    · rw [if_neg h1]
      by_cases hteam : team = "all"
      · subst hteam
        have hallgrow : teamNumbers (updateTeam teams "all" (fun l => l ++ [⟨number, desc⟩])) "all" =
            la ++ [⟨number, desc⟩] := by
          simp [teamNumbers, lookup_updateTeam, hla]
        have hany : ((teamNumbers (updateTeam teams "all" (fun l => l ++ [⟨number, desc⟩])) "all").any
            (fun e => e.number == number)) = true := by
          rw [hallgrow, any_number_eq]
          exact ⟨⟨number, desc⟩, by simp, rfl⟩
        rw [if_pos hany]
        exact mirror_grow_all teams _ (fun l e he => List.mem_append_left _ he) hm
      · have hallt1 : teamNumbers (updateTeam teams team (fun l => l ++ [⟨number, desc⟩])) "all" =
            teamNumbers teams "all" :=
          teamNumbers_updateTeam_ne _ _ _ _ (Ne.symm hteam)
        by_cases h2 : ((teamNumbers (updateTeam teams team (fun l => l ++ [⟨number, desc⟩])) "all").any
            (fun e => e.number == number)) = true
        · rw [if_pos h2]
          rw [hallt1, any_number_eq] at h2
          obtain ⟨e2, he2, he2n⟩ := h2
          intro kv hkv hne e he
          obtain ⟨kv0, hkv0, hfst, hsnd⟩ := mem_updateTeam _ _ _ _ hkv
          have hne0 : kv0.1 ≠ "all" := hfst ▸ hne
          rw [teamNumbers, lookup_updateTeam, if_neg (Ne.symm hteam)]
          rcases hsnd with h | ⟨_, h⟩
          · obtain ⟨e3, he3, he3n⟩ := hm kv0 hkv0 hne0 e (h ▸ he)
            exact ⟨e3, he3, he3n⟩
          · rcases List.mem_append.mp (h ▸ he) with hold | hnew
            · obtain ⟨e3, he3, he3n⟩ := hm kv0 hkv0 hne0 e hold
              exact ⟨e3, he3, he3n⟩
            · have : e = ⟨number, desc⟩ := by simpa using hnew
              exact ⟨e2, he2, by rw [he2n, this]⟩
        · rw [if_neg h2]
          intro kv hkv hne e he
          obtain ⟨kv0, hkv0, hfst, hsnd⟩ := mem_updateTeam _ _ _ _ hkv
          have hne0 : kv0.1 ≠ "all" := hfst ▸ hne
          have hev : e ∈ kv0.2 := by
            rcases hsnd with h | ⟨h, _⟩
            · exact h ▸ he
            · exact absurd h hne0
          obtain ⟨kv00, hkv00, hfst0, hsnd0⟩ := mem_updateTeam _ _ _ _ hkv0
          have hne00 : kv00.1 ≠ "all" := hfst0 ▸ hne0
          have hallres : teamNumbers (updateTeam
              (updateTeam teams team (fun l => l ++ [⟨number, desc⟩])) "all"
              (fun l => l ++ [⟨number, desc⟩])) "all" =
              teamNumbers teams "all" ++ [⟨number, desc⟩] := by
            simp [teamNumbers, lookup_updateTeam, Ne.symm hteam, hla]
          rw [hallres]
          rcases hsnd0 with h | ⟨_, h⟩
          · obtain ⟨e3, he3, he3n⟩ := hm kv00 hkv00 hne00 e (h ▸ hev)
            exact ⟨e3, List.mem_append_left _ he3, he3n⟩
          · rcases List.mem_append.mp (h ▸ hev) with hold | hnew
            · obtain ⟨e3, he3, he3n⟩ := hm kv00 hkv00 hne00 e hold
              exact ⟨e3, List.mem_append_left _ he3, he3n⟩
            · have he' : e = ⟨number, desc⟩ := by simpa using hnew
              exact ⟨⟨number, desc⟩, List.mem_append_right _ (by simp), by rw [he']⟩
  · simpa [add_number, if_neg hguard] using hm

theorem mirror_remove_number (teams : List (String × List Dest)) (team number : String)
    (hteam : team ≠ "all") (hm : Mirror teams) :
    Mirror (remove_number teams team number) := by
  by_cases hg : (List.lookup team teams).isSome
  · rw [remove_number, if_pos hg]
    intro kv hkv hne e he
    obtain ⟨kv0, hkv0, hfst, hsnd⟩ := mem_updateTeam _ _ _ _ hkv
    have hne0 : kv0.1 ≠ "all" := hfst ▸ hne
    have hev : e ∈ kv0.2 := by
      rcases hsnd with h | ⟨_, h⟩
      · exact h ▸ he
      · exact List.mem_of_mem_filter (h ▸ he)
    obtain ⟨e2, he2, he2n⟩ := hm kv0 hkv0 hne0 e hev
    rw [teamNumbers_updateTeam_ne _ _ _ _ (Ne.symm hteam)]
    exact ⟨e2, he2, he2n⟩
  · rw [remove_number, if_neg hg]
    exact hm

theorem add_number_mirrors_into_all (teams : List (String × List Dest))
    (team number desc : String) (la : List Dest)
    (hla : List.lookup "all" teams = some la)
    (hrec : (List.lookup team teams).isSome) (hnum : number ≠ "") :
    ∃ e ∈ teamNumbers (add_number teams team number desc) "all", e.number = number := by
  simp only [add_number, if_pos (And.intro hrec hnum)]
  by_cases h1 : ((teamNumbers teams team).any (fun e => e.number == number)) = true
  · rw [if_pos h1]
    by_cases h2 : ((teamNumbers teams "all").any (fun e => e.number == number)) = true
    · rw [if_pos h2]
      exact (any_number_eq _ _).mp h2
    · rw [if_neg h2]
      refine ⟨⟨number, desc⟩, ?_, rfl⟩
      simp [teamNumbers, lookup_updateTeam, hla]
  · rw [if_neg h1]
    by_cases h2 : ((teamNumbers (updateTeam teams team (fun l => l ++ [⟨number, desc⟩])) "all").any
        (fun e => e.number == number)) = true
    · rw [if_pos h2]
      exact (any_number_eq _ _).mp h2
    · rw [if_neg h2]
      refine ⟨⟨number, desc⟩, ?_, rfl⟩
      by_cases hteam : team = "all"
      · subst hteam
        simp [teamNumbers, lookup_updateTeam, hla]
      · simp [teamNumbers, lookup_updateTeam, Ne.symm hteam, hla]
/-- C8 counterexample: the mirroring invariant is NOT preserved by
`remove_number` on team `all` — removing `+1` from `all` leaves it in
`devops`. -/
theorem mirroring_counterexample :
    Mirror [("all", [⟨"+1", ""⟩]), ("devops", [⟨"+1", ""⟩]), ("cloud", []),
            ("web", []), ("noc", []), ("managers", [])] ∧
    ¬ Mirror (remove_number
        [("all", [⟨"+1", ""⟩]), ("devops", [⟨"+1", ""⟩]), ("cloud", []),
         ("web", []), ("noc", []), ("managers", [])] "all" "+1") := by
  refine ⟨by decide, by decide⟩

/-- C8 amended: on a store carrying an `all` key, the mirroring invariant is
preserved by `add_number` (for any team) and by `remove_number` on any
non-`all` team; moreover a number added to a team is afterwards present in
`all` (removal from `all` itself can break the invariant, per the
counterexample). -/
theorem mirroring_amended (teams : List (String × List Dest)) (team number desc : String)
    (la : List Dest) (hla : List.lookup "all" teams = some la) (hm : Mirror teams) :
    Mirror (add_number teams team number desc) ∧
    (team ≠ "all" → Mirror (remove_number teams team number)) ∧
    ((List.lookup team teams).isSome → number ≠ "" →
      ∃ e ∈ teamNumbers (add_number teams team number desc) "all", e.number = number) :=
  ⟨mirror_add_number teams team number desc la hla hm,
   fun h => mirror_remove_number teams team number h hm,
   fun h1 h2 => add_number_mirrors_into_all teams team number desc la hla h1 h2⟩

/-- Witness for the amended C8 on a concrete six-team store. -/
theorem mirroring_amended_witness :
    Mirror (add_number [("all", []), ("devops", []), ("cloud", []), ("web", []),
        ("noc", []), ("managers", [])] "devops" "+1" "d") ∧
    Mirror (remove_number [("all", []), ("devops", []), ("cloud", []), ("web", []),
        ("noc", []), ("managers", [])] "devops" "+1") ∧
    ∃ e ∈ teamNumbers (add_number [("all", []), ("devops", []), ("cloud", []), ("web", []),
        ("noc", []), ("managers", [])] "devops" "+1" "d") "all", e.number = "+1" := by
  obtain ⟨h1, h2, h3⟩ := mirroring_amended
    [("all", []), ("devops", []), ("cloud", []), ("web", []), ("noc", []), ("managers", [])]
    "devops" "+1" "d" [] (by decide) (by decide)
  exact ⟨h1, h2 (by decide), h3 (by decide) (by decide)⟩

theorem updateTeam_keys (teams : List (String × List Dest)) (t : String)
    (f : List Dest → List Dest) :
    (updateTeam teams t f).map Prod.fst = teams.map Prod.fst := by
  induction teams with
  | nil => rfl
  | cons kv rest ih =>
    rcases kv with ⟨k, v⟩
    rw [updateTeam_cons]
    by_cases h : k = t <;> simp only [h, if_pos, if_neg, List.map_cons] <;>
      simp [ih, h]

theorem parseLoop_keys (jdec : String → Option Provider) (teams : List (String × List Dest))
    (providers : List Provider) (current : Option String) (lines : List String) :
    (parseLoop jdec teams providers current lines).1.map Prod.fst = teams.map Prod.fst := by
  induction lines generalizing teams providers current with
  | nil => rfl
  | cons line rest ih =>
    simp only [parseLoop]
    repeat' split
    all_goals simp [ih, updateTeam_keys]
theorem parseLoop_no_header (jdec : String → Option Provider) (t : String)
    (lines : List String) (teams : List (String × List Dest))
    (providers : List Provider) (current : Option String)
    (hnh : ∀ line ∈ lines, isHeaderFor t line = false)
    (ht : t ≠ "sms_provider")
    (hcur : current ≠ some t)
    (hlk : List.lookup t teams = some []) :
    List.lookup t (parseLoop jdec teams providers current lines).1 = some [] := by
  induction lines generalizing teams providers current with
  | nil => exact hlk
  | cons line rest ih =>
    have hline := hnh line (List.mem_cons_self _ _)
    have hrest : ∀ l ∈ rest, isHeaderFor t l = false := fun l hl => hnh l (List.mem_cons_of_mem _ hl)
    simp only [parseLoop]
    by_cases h0 : pyStrip line = ""
    · rw [if_pos h0]
      exact ih _ _ _ hrest hcur hlk
    · rw [if_neg h0]
      by_cases h1 : (pyStartsWith (pyStrip line) "[" && pyEndsWith (pyStrip line) "]") = true
      · rw [if_pos h1]
        have hsect : pyStrip (innerChars (pyStrip line)) ≠ t := by
          simp only [isHeaderFor, h1, Bool.true_and] at hline
          simpa using hline
        by_cases h2 : pyStrip (innerChars (pyStrip line)) ∈ TEAMS
        · rw [if_pos h2]
          exact ih _ _ _ hrest (fun e => hsect (Option.some.inj e)) hlk
        · rw [if_neg h2]
          by_cases h3 : pyStrip (innerChars (pyStrip line)) = "sms_provider"
          · rw [if_pos h3]
            exact ih _ _ _ hrest (fun e => ht (Option.some.inj e).symm) hlk
          · rw [if_neg h3]
            exact ih _ _ _ hrest hcur hlk
      · rw [if_neg h1]
        split
        · rename_i c
          have hct : c ≠ t := fun e => hcur (by rw [e])
          by_cases h4 : c = "sms_provider"
          · rw [if_pos h4]
            exact ih _ _ _ hrest hcur hlk
          · rw [if_neg h4]
            by_cases h5 : c ∈ TEAMS
            · rw [if_pos h5]
              refine ih _ _ _ hrest hcur ?_
              rw [lookup_updateTeam, if_neg (Ne.symm hct)]
              exact hlk
            · rw [if_neg h5]
              exact ih _ _ _ hrest hcur hlk
        · exact ih _ _ _ hrest hcur hlk
theorem initTeams_keys : initTeams.map Prod.fst = TEAMS := by decide

/-- C10: whatever the file content, `load_numbers` yields a teams mapping
whose key list is exactly the six fixed team names, so looking up a
recognized team never fails; a team whose section header does not occur in
the file is bound to the empty list. -/
theorem load_numbers_teams_shape (jdec : String → Option Provider) (file : Option (List String)) :
    ((load_numbers jdec file).1.map Prod.fst = TEAMS) ∧
    (∀ t ∈ TEAMS, (List.lookup t (load_numbers jdec file).1).isSome) ∧
    (∀ t ∈ TEAMS, (∀ line ∈ file.getD defaultContent, isHeaderFor t line = false) →
      List.lookup t (load_numbers jdec file).1 = some []) := by
  have hkeys : (load_numbers jdec file).1.map Prod.fst = TEAMS := by
    rw [load_numbers, parseLoop_keys, initTeams_keys]
  refine ⟨hkeys, ?_, ?_⟩
  · intro t htm
    rw [lookup_isSome_iff_mem_keys, hkeys]
    exact htm
  · intro t htm hnh
    rw [load_numbers]
    refine parseLoop_no_header jdec t _ initTeams [] none hnh ?_ (by simp) ?_
    · fin_cases htm <;> decide
    · fin_cases htm <;> decide

/-- Witness for C10 on a concrete file (no `web` header present). -/
theorem load_numbers_teams_shape_witness :
    ((load_numbers (fun _ => none) (some ["[all]", "+1", "[bogus]", "x"])).1.map Prod.fst = TEAMS) ∧
    (List.lookup "web" (load_numbers (fun _ => none) (some ["[all]", "+1", "[bogus]", "x"])).1).isSome ∧
    List.lookup "web" (load_numbers (fun _ => none) (some ["[all]", "+1", "[bogus]", "x"])).1 = some [] := by
  obtain ⟨h1, h2, h3⟩ := load_numbers_teams_shape (fun _ => none) (some ["[all]", "+1", "[bogus]", "x"])
  exact ⟨h1, h2 "web" (by decide), h3 "web" (by decide) (by decide)⟩

/-- C5: whenever message building succeeds, the alert handler responds
`{"status": "ok", "sent_to": resolved numbers}`, independently of the
delivery outcome of every per-provider/per-send attempt (the network oracle
is irrelevant to the response); an unrecognized team key — in particular any
team outside the fixed set, on a loaded store — yields the same success
response with an empty `sent_to`. -/
theorem alert_response (net net' : Request → Bool) (teams : List (String × List Dest))
    (providers : List Provider) (ct : Option String) (data : Payload) (team : String)
    (hbuild : (build_message data ct).isSome) :
    (alert net teams providers ct data team).2 =
      some ⟨"ok", resolveNumbers teams team⟩ ∧
    (alert net teams providers ct data team).2 = (alert net' teams providers ct data team).2 ∧
    (List.lookup team teams = none →
      (alert net teams providers ct data team).2 = some ⟨"ok", []⟩) ∧
    (∀ (jdec : String → Option Provider) (file : Option (List String)), team ∉ TEAMS →
      (alert net (load_numbers jdec file).1 providers ct data team).2 = some ⟨"ok", []⟩) := by
  obtain ⟨m, hm⟩ := Option.isSome_iff_exists.mp hbuild
  have hresp : ∀ ts : List (String × List Dest),
      (alert net ts providers ct data team).2 = some ⟨"ok", resolveNumbers ts team⟩ := by
    intro ts
    simp [alert, hm]
  refine ⟨hresp teams, ?_, ?_, ?_⟩
  · rw [hresp teams]
    simp [alert, hm]
  · intro h
    rw [hresp teams]
    simp [resolveNumbers, h, uniqueNumbersAux]
  · intro jdec file hnt
    have hlk : List.lookup team (load_numbers jdec file).1 = none := by
      rw [← Option.not_isSome_iff_eq_none, lookup_isSome_iff_mem_keys,
        load_numbers, parseLoop_keys, initTeams_keys]
      exact hnt
    rw [hresp]
    simp [resolveNumbers, hlk, uniqueNumbersAux]

/-- Witness for C5: concrete dispatch states, one failing network oracle,
and an unknown team on a freshly loaded store. -/
theorem alert_response_witness :
    (alert netAlways [("all", [⟨"+1", ""⟩])] [Provider.bare "u"] none
        ⟨none, some "x", some "resolved", some "ok", none⟩ "all").2 =
      some ⟨"ok", ["+1"]⟩ ∧
    (alert netAlways [("all", [⟨"+1", ""⟩])] [Provider.bare "u"] none
        ⟨none, some "x", some "resolved", some "ok", none⟩ "all").2 =
      (alert (netFailReceptor "+1") [("all", [⟨"+1", ""⟩])] [Provider.bare "u"] none
        ⟨none, some "x", some "resolved", some "ok", none⟩ "all").2 ∧
    (alert netAlways (load_numbers (fun _ => none) none).1 [Provider.bare "u"] none
        ⟨none, some "x", some "resolved", some "ok", none⟩ "ghost").2 = some ⟨"ok", []⟩ := by
  obtain ⟨h1, h2, h3, h4⟩ := alert_response netAlways (netFailReceptor "+1")
    [("all", [⟨"+1", ""⟩])] [Provider.bare "u"] none
    ⟨none, some "x", some "resolved", some "ok", none⟩ "all" (by decide)
  obtain ⟨g1, g2, g3, g4⟩ := alert_response netAlways netAlways
    [("all", [⟨"+1", ""⟩])] [Provider.bare "u"] none
    ⟨none, some "x", some "resolved", some "ok", none⟩ "ghost" (by decide)
  refine ⟨?_, h2, g4 (fun _ => none) none (by decide)⟩
  rw [h1]
  decide

end Alerting
